import Mathlib

/-!
# installer.cpp: classification, dispatch and install actions

A shallow embedding of `src/installer.cpp` (class `PackageInstaller` and `main`).

* `std::string` is a list of characters (`Str`).
* The file system is a finite table from path strings to nodes (regular file,
  directory, symbolic link).  Paths are compared as written; `stat`-like
  queries follow symbolic links on the named path (at most `MAXSYMLINKS`
  hops), `remove` and `create_symlink` act on the named path itself.
* `stat`, `fs::exists` are total queries of that table: a path whose
  resolution fails (absent, dangling link, link cycle) is reported as absent.
  The throwing operations inside the `try` blocks (`copy_file`, `remove`,
  `create_symlink`) return `Option`, `none` standing for the exception.
* `system` is a command runner: the `n`-th subprocess call receives the
  command line and the file system and yields an exit status and a file
  system.
* Everything written to `std::cout`/`std::cerr` and every `system` call is
  recorded, in order, as an `Event`.
-/

namespace Installer

/-! ## Strings and paths -/

abbrev Str := List Char

/-- Model of `std::string::ends_with`: the string is at least as long as the suffix and
its last `suffix.size()` characters are the suffix. -/
def ends_with (s suffix : Str) : Bool :=
  decide (suffix.length ≤ s.length) && (s.drop (s.length - suffix.length) == suffix)

/-- Search loop of `std::string::find`: the least position at or after `pos`
(counted from the start of the original string) where `pat` occurs; `none` is `npos`. -/
def findFrom (pat : Str) : Str → Nat → Option Nat
  | [], pos => if pat.isPrefixOf [] then some pos else none
  | c :: cs, pos => if pat.isPrefixOf (c :: cs) then some pos else findFrom pat cs (pos + 1)

/-- Model of `std::string::find(pat)`. -/
def find (s pat : Str) : Option Nat := findFrom pat s 0

/-- Model of `std::string::rfind(c)`: position of the last occurrence of `c`. -/
def rfind (s : Str) (c : Char) : Option Nat :=
  match s.reverse.dropWhile (fun x => x != c) with
  | [] => none
  | _ :: t => some t.length

/-- Model of `fs::path::filename()`: what follows the last `/`. -/
def filename (p : Str) : Str :=
  (p.reverse.takeWhile (fun x => x != '/')).reverse

/-- Model of `fs::path::stem()` on a single file name: the name without its last
extension; `.`, `..` and names whose only period is the first character are kept whole. -/
def stem (f : Str) : Str :=
  if f.length ≤ 2 ∧ f.head? = some '.' then f
  else
    match rfind f '.' with
    | none => f
    | some 0 => f
    | some (pos + 1) => f.take (pos + 1)

/-! ## File system -/

/-- Nodes of the file system; `mode` holds the permission bits. -/
inductive Node where
  | file (content : List Nat) (mode : Nat)
  | dir (mode : Nat)
  | symlink (target : Str)
  deriving DecidableEq, Repr

abbrev FS := List (Str × Node)

/-- Node stored at exactly this path (no link is followed), as `lstat` sees it. -/
def lookup : FS → Str → Option Node
  | [], _ => none
  | (q, n) :: rest, p => if q = p then some n else lookup rest p

/-- Table without the entry for `p`. -/
def erase (fs : FS) (p : Str) : FS := fs.filter (fun e => decide (e.1 ≠ p))

/-- Table in which `p` holds `n`. -/
def write (fs : FS) (p : Str) (n : Node) : FS := (p, n) :: erase fs p

/-- Number of symbolic links followed before a lookup gives up (`ELOOP`). -/
def MAXSYMLINKS : Nat := 40

/-- Follow symbolic links starting at `p`; the path reached may be absent. `none` when
the hops run out. -/
def resolve (fs : FS) : Nat → Str → Option Str
  | 0, _ => none
  | n + 1, p =>
    match lookup fs p with
    | some (.symlink t) => resolve fs n t
    | _ => some p

/-- Model of `stat(2)`: the node the path leads to, `none` when the call fails. -/
def stat (fs : FS) (p : Str) : Option Node :=
  match resolve fs MAXSYMLINKS p with
  | some q => lookup fs q
  | none => none

/-- Field `st_mode` (permission bits) of a `stat` result. -/
def st_mode : Node → Nat
  | .file _ m => m
  | .dir m => m
  | .symlink _ => 0

def S_IXUSR : Nat := 0o100
def S_IRWXU : Nat := 0o700
def S_IRGRP : Nat := 0o040
def S_IXGRP : Nat := 0o010
def S_IROTH : Nat := 0o004
def S_IXOTH : Nat := 0o001

/-- Model of `fs::exists`. -/
def fs_exists (fs : FS) (p : Str) : Bool := (stat fs p).isSome

/-- Some entry lies strictly below directory `p`. -/
def hasChild (fs : FS) (p : Str) : Bool :=
  fs.any (fun e => (p ++ ['/']).isPrefixOf e.1 && decide (e.1 ≠ p ++ ['/']))

/-- Model of `fs::copy_file(from, to, copy_options::overwrite_existing)`. It throws
(`none`) when the source is not a regular file, when the target exists and is not a
regular file, or when source and target are the same file; otherwise the target gets the
content and permissions of the source. -/
def copy_file (fs : FS) (src dst : Str) : Option FS :=
  match resolve fs MAXSYMLINKS src, resolve fs MAXSYMLINKS dst with
  | some s, some d =>
    match lookup fs s with
    | some (.file c m) =>
      match lookup fs d with
      | none => some (write fs d (.file c m))
      | some (.file _ _) => if s = d then none else some (write fs d (.file c m))
      | some _ => none
    | _ => none
  | _, _ => none

/-- Model of `chmod(2)`; the return value is ignored by the program. -/
def chmod (fs : FS) (p : Str) (mode : Nat) : FS :=
  match resolve fs MAXSYMLINKS p with
  | some q =>
    match lookup fs q with
    | some (.file c _) => write fs q (.file c mode)
    | some (.dir _) => write fs q (.dir mode)
    | _ => fs
  | none => fs

/-- Model of `fs::remove`: nothing to do for an absent path, throws (`none`) on a
directory that is not empty. -/
def remove (fs : FS) (p : Str) : Option FS :=
  match lookup fs p with
  | none => some fs
  | some (.dir _) => if hasChild fs p then none else some (erase fs p)
  | some _ => some (erase fs p)

/-- Model of `fs::create_symlink(target, link)`: throws (`none`) when `link` exists. -/
def create_symlink (fs : FS) (target link : Str) : Option FS :=
  match lookup fs link with
  | none => some (write fs link (.symlink target))
  | some _ => none

/-- The path itself and each of its proper prefixes that ends before a `/`. -/
def pathPrefixes (p : Str) : List Str :=
  ((List.range p.length).filter (fun i => decide (0 < i) && (p.drop i).head? == some '/')).map
    (fun i => p.take i) ++ [p]

/-- Model of `fs::create_directories`: every missing directory on the way is created with
mode `0777 & ~umask`; entries already there are left as they are. -/
def create_directories (umask : Nat) (fs : FS) (p : Str) : FS :=
  (pathPrefixes p).foldl
    (fun acc q =>
      if (lookup acc q).isSome then acc else write acc q (.dir (0o777 &&& (0o777 ^^^ umask))))
    fs

/-! ## Environment, trace and program state -/

/-- The four install actions. -/
inductive Action where
  | deb | appimage | binary | library
  deriving DecidableEq, Repr

/-- What the program prints or runs, one constructor for each output statement. -/
inductive Event where
  | installing (a : Action) (file : Str)
  | notExist (file : Str)
  | system (cmd : Str)
  | userLevelFailed
  | installed (a : Action) (dest : Str)
  | linkCreated (link : Str)
  | errorInstalling (a : Action)
  | unknownType (file : Str)
  | help
  | noFiles
  | processing (file : Str)
  | failed (file : Str)
  | succeeded (file : Str)
  deriving DecidableEq, Repr

/-- Command runner standing for `system`: call number, command line and file system give
the returned status and the file system the command leaves. -/
abbrev Runner := Nat → Str → FS → Int × FS

structure World where
  fs : FS
  ncmd : Nat
  out : List Event

/-- Append one event to the trace. -/
def World.emit (w : World) (e : Event) : World := { w with out := w.out ++ [e] }

/-- Model of `system(cmd)`. -/
def World.system (sh : Runner) (w : World) (cmd : Str) : Int × World :=
  let r := sh w.ncmd cmd w.fs
  (r.1, { fs := r.2, ncmd := w.ncmd + 1, out := w.out ++ [Event.system cmd] })

/-! ## class PackageInstaller -/

structure PackageInstaller where
  homeDir : Str
  localBinDir : Str
  localLibDir : Str
  appImageDir : Str

/-- Constructor body `initializeDirectories`, `home` being `pw->pw_dir`. -/
def initializeDirectories (home : Str) (umask : Nat) (fs : FS) : PackageInstaller × FS :=
  let localBinDir := home ++ "/.local/bin".toList
  let localLibDir := home ++ "/.local/lib".toList
  let appImageDir := home ++ "/.local/share/appimages".toList
  let fs1 := create_directories umask fs localBinDir
  let fs2 := create_directories umask fs1 localLibDir
  let fs3 := create_directories umask fs2 appImageDir
  ({ homeDir := home, localBinDir := localBinDir, localLibDir := localLibDir,
     appImageDir := appImageDir }, fs3)

def isDebPackage (filename : Str) : Bool :=
  ends_with filename ".deb".toList

def isAppImage (filename : Str) : Bool :=
  ends_with filename ".AppImage".toList || ends_with filename ".appimage".toList

def isBinary (fs : FS) (filename : Str) : Bool :=
  if isDebPackage filename || isAppImage filename then false
  else
    match stat fs filename with
    | some st => st_mode st &&& S_IXUSR != 0
    | none => false

def isLibrary (filename : Str) : Bool :=
  ends_with filename ".so".toList ||
  (find filename ".so.".toList).isSome ||
  ends_with filename ".a".toList

/-- Command line of the user-level attempt. -/
def userCmd (I : PackageInstaller) (debFile : Str) : Str :=
  "dpkg -i --force-not-root --root=".toList ++ I.homeDir ++ "/.local ".toList ++ debFile

/-- Command line of the fallback. -/
def sudoCmd (debFile : Str) : Str := "sudo dpkg -i ".toList ++ debFile

def installDebPackage (I : PackageInstaller) (sh : Runner) (debFile : Str) (w : World) :
    Bool × World :=
  let w := w.emit (.installing .deb debFile)
  if !fs_exists w.fs debFile then (false, w.emit (.notExist debFile))
  else
    let r := w.system sh (userCmd I debFile)
    if r.1 != 0 then
      let r2 := (r.2.emit .userLevelFailed).system sh (sudoCmd debFile)
      (r2.1 == 0, r2.2)
    else (r.1 == 0, r.2)

/-- Mode given to installed executables: `S_IRWXU | S_IRGRP | S_IXGRP | S_IROTH | S_IXOTH`. -/
def execMode : Nat := S_IRWXU ||| S_IRGRP ||| S_IXGRP ||| S_IROTH ||| S_IXOTH

def installAppImage (I : PackageInstaller) (appImageFile : Str) (w : World) : Bool × World :=
  let w := w.emit (.installing .appimage appImageFile)
  if !fs_exists w.fs appImageFile then (false, w.emit (.notExist appImageFile))
  else
    let filename := filename appImageFile
    let destPath := I.appImageDir ++ "/".toList ++ filename
    match copy_file w.fs appImageFile destPath with
    | none => (false, w.emit (.errorInstalling .appimage))
    | some fs1 =>
      let fs2 := chmod fs1 destPath execMode
      let linkPath := I.localBinDir ++ "/".toList ++ stem filename
      match remove fs2 linkPath with
      | none => (false, { w with fs := fs2 }.emit (.errorInstalling .appimage))
      | some fs3 =>
        match create_symlink fs3 destPath linkPath with
        | none => (false, { w with fs := fs3 }.emit (.errorInstalling .appimage))
        | some fs4 =>
          (true, ({ w with fs := fs4 }.emit (.installed .appimage destPath)).emit
            (.linkCreated linkPath))

def installBinary (I : PackageInstaller) (binaryFile : Str) (w : World) : Bool × World :=
  let w := w.emit (.installing .binary binaryFile)
  if !fs_exists w.fs binaryFile then (false, w.emit (.notExist binaryFile))
  else
    let filename := filename binaryFile
    let destPath := I.localBinDir ++ "/".toList ++ filename
    match copy_file w.fs binaryFile destPath with
    | none => (false, w.emit (.errorInstalling .binary))
    | some fs1 =>
      let fs2 := chmod fs1 destPath execMode
      (true, { w with fs := fs2 }.emit (.installed .binary destPath))

def installLibrary (I : PackageInstaller) (libFile : Str) (w : World) : Bool × World :=
  let w := w.emit (.installing .library libFile)
  if !fs_exists w.fs libFile then (false, w.emit (.notExist libFile))
  else
    let filename := filename libFile
    let destPath := I.localLibDir ++ "/".toList ++ filename
    match copy_file w.fs libFile destPath with
    | none => (false, w.emit (.errorInstalling .library))
    | some fs1 => (true, { w with fs := fs1 }.emit (.installed .library destPath))

def autoInstall (I : PackageInstaller) (sh : Runner) (filename : Str) (w : World) :
    Bool × World :=
  if isDebPackage filename then installDebPackage I sh filename w
  else if isAppImage filename then installAppImage I filename w
  else if isLibrary filename then installLibrary I filename w
  else if isBinary w.fs filename then installBinary I filename w
  else (false, w.emit (.unknownType filename))

/-- The `if`/`else if` chain in the body of the file loop. -/
def installOne (I : PackageInstaller) (sh : Runner) (forceType : Str) (file : Str)
    (w : World) : Bool × World :=
  if forceType = "deb".toList then installDebPackage I sh file w
  else if forceType = "appimage".toList then installAppImage I file w
  else if forceType = "binary".toList then installBinary I file w
  else if forceType = "library".toList then installLibrary I file w
  else autoInstall I sh file w

/-- Install actions entered, in order: each action announces itself first thing. -/
def actions (out : List Event) : List (Action × Str) :=
  out.filterMap (fun e => match e with
    | .installing a f => some (a, f)
    | _ => none)

/-- Command lines handed to `system`, in order. -/
def commands (out : List Event) : List Str :=
  out.filterMap (fun e => match e with
    | .system c => some c
    | _ => none)

/-- Two states that agree on the file system, the command count, the install actions
entered so far and the commands run so far. -/
def Sim (w w2 : World) : Prop :=
  w.fs = w2.fs ∧ w.ncmd = w2.ncmd ∧ actions w.out = actions w2.out ∧
  commands w.out = commands w2.out

/-- Installer rooted at `/home/u`, used in the worked examples. -/
def homeU : PackageInstaller :=
  (initializeDirectories "/home/u".toList 0o022 []).1

/-- Command runner whose commands all exit with status `0` and change nothing. -/
def okRunner : Runner := fun _ _ fs => (0, fs)

theorem ends_with_iff (s t : Str) : ends_with s t = true ↔ t <:+ s := by
  unfold ends_with
  rw [List.suffix_iff_eq_drop]
  constructor
  · intro h
    simp only [Bool.and_eq_true, decide_eq_true_eq, beq_iff_eq] at h
    exact h.2.symm
  · intro h
    have hl : t.length ≤ s.length := by
      have := congrArg List.length h
      simp only [List.length_drop] at this
      omega
    simp only [Bool.and_eq_true, decide_eq_true_eq, beq_iff_eq]
    exact ⟨hl, h.symm⟩

theorem findFrom_isSome_iff (pat : Str) (s : Str) (pos : Nat) :
    (findFrom pat s pos).isSome = true ↔ pat <:+: s := by
  induction s generalizing pos with
  | nil =>
    unfold findFrom
    by_cases h : pat.isPrefixOf [] = true
    · rw [if_pos h]
      simp only [Option.isSome_some, true_iff]
      exact (List.isPrefixOf_iff_prefix.mp h).isInfix
    · rw [if_neg h]
      simp only [Option.isSome_none, Bool.false_eq_true, false_iff]
      intro hi
      apply h
      rw [List.isPrefixOf_iff_prefix]
      have : pat = [] := List.eq_nil_of_infix_nil hi
      subst this
      exact List.prefix_refl _
  | cons c cs ih =>
    unfold findFrom
    rw [List.infix_cons_iff]
    by_cases h : pat.isPrefixOf (c :: cs) = true
    · rw [if_pos h]
      simp only [Option.isSome_some, true_iff]
      exact Or.inl (List.isPrefixOf_iff_prefix.mp h)
    · rw [if_neg h, ih]
      constructor
      · exact Or.inr
      · rintro (hp | hi)
        · exact absurd (List.isPrefixOf_iff_prefix.mpr hp) h
        · exact hi

theorem find_isSome_iff (s pat : Str) : (find s pat).isSome = true ↔ pat <:+: s :=
  findFrom_isSome_iff pat s 0

theorem isDebPackage_iff (f : Str) : isDebPackage f = true ↔ ".deb".toList <:+ f :=
  ends_with_iff f _

theorem isAppImage_iff (f : Str) :
    isAppImage f = true ↔ ".AppImage".toList <:+ f ∨ ".appimage".toList <:+ f := by
  unfold isAppImage
  rw [Bool.or_eq_true, ends_with_iff, ends_with_iff]

theorem isLibrary_iff (f : Str) :
    isLibrary f = true ↔ ".so".toList <:+ f ∨ ".so.".toList <:+: f ∨ ".a".toList <:+ f := by
  unfold isLibrary
  rw [Bool.or_eq_true, Bool.or_eq_true, ends_with_iff, ends_with_iff, find_isSome_iff, or_assoc]

theorem and_S_IXUSR_ne_zero (m : Nat) : (m &&& S_IXUSR != 0) = m.testBit 6 := by
  have h : S_IXUSR = 2 ^ 6 := by decide
  rw [h, Nat.and_two_pow]
  cases m.testBit 6 <;> simp

/-! ## What each install action adds to the trace -/

theorem actions_append (xs ys : List Event) : actions (xs ++ ys) = actions xs ++ actions ys := by
  simp [actions, List.filterMap_append]

theorem installLibrary_actions (I : PackageInstaller) (f : Str) (w : World) :
    actions (installLibrary I f w).2.out = actions w.out ++ [(Action.library, f)] := by
  unfold installLibrary
  simp only [World.emit]
  split
  · simp [actions_append, actions]
  · split <;> simp [actions_append, actions]

theorem installBinary_actions (I : PackageInstaller) (f : Str) (w : World) :
    actions (installBinary I f w).2.out = actions w.out ++ [(Action.binary, f)] := by
  unfold installBinary
  simp only [World.emit]
  split
  · simp [actions_append, actions]
  · split <;> simp [actions_append, actions]

theorem installDebPackage_actions (I : PackageInstaller) (sh : Runner) (f : Str) (w : World) :
    actions (installDebPackage I sh f w).2.out = actions w.out ++ [(Action.deb, f)] := by
  unfold installDebPackage
  simp only [World.emit, World.system]
  split
  · simp [actions_append, actions]
  · split <;> simp [actions_append, actions]

/-! ## Classification and dispatch (`autoInstall`) -/

/-- C2: for every file name ending in `.deb`, in every state of the file system,
`autoInstall` is exactly `installDebPackage` on that file, and the only install action
entered is the deb action. -/
theorem autoInstall_deb (I : PackageInstaller) (sh : Runner) (w : World) (f : Str)
    (h : ".deb".toList <:+ f) :
    autoInstall I sh f w = installDebPackage I sh f w ∧
    actions (autoInstall I sh f w).2.out = actions w.out ++ [(Action.deb, f)] := by
  have hd : isDebPackage f = true := (isDebPackage_iff f).mpr h
  have e : autoInstall I sh f w = installDebPackage I sh f w := by
    unfold autoInstall
    rw [if_pos hd]
  exact ⟨e, by rw [e]; exact installDebPackage_actions I sh f w⟩

theorem autoInstall_deb_witness :
    ".deb".toList <:+ "pkg.deb".toList ∧
    autoInstall homeU okRunner "pkg.deb".toList ⟨[], 0, []⟩ =
      installDebPackage homeU okRunner "pkg.deb".toList ⟨[], 0, []⟩ ∧
    actions (autoInstall homeU okRunner "pkg.deb".toList ⟨[], 0, []⟩).2.out =
      actions [] ++ [(Action.deb, "pkg.deb".toList)] :=
  ⟨by decide, autoInstall_deb homeU okRunner ⟨[], 0, []⟩ "pkg.deb".toList (by decide)⟩

/-- C1 fails as stated: `libz.so.1.deb` contains `.so.`, yet `autoInstall` enters the deb
action on it, not the library action. -/
theorem autoInstall_library_counterexample :
    ".so.".toList <:+: "libz.so.1.deb".toList ∧
    actions (autoInstall homeU okRunner "libz.so.1.deb".toList
      ⟨[("libz.so.1.deb".toList, Node.file [] 0o644)], 0, []⟩).2.out =
      [(Action.deb, "libz.so.1.deb".toList)] ∧
    autoInstall homeU okRunner "libz.so.1.deb".toList
      ⟨[("libz.so.1.deb".toList, Node.file [] 0o644)], 0, []⟩ =
      installDebPackage homeU okRunner "libz.so.1.deb".toList
        ⟨[("libz.so.1.deb".toList, Node.file [] 0o644)], 0, []⟩ := by
  refine ⟨⟨"libz".toList, "1.deb".toList, by decide⟩, by decide, rfl⟩

/-- C1 (amended): for every file name that ends in `.so` or `.a` or contains `.so.`, and
that does not end in `.deb`, `.AppImage` or `.appimage`, in every state of the file system
(owner-execute bit set or not), `autoInstall` is exactly `installLibrary` on that file, and
the only install action entered is the library action. -/
theorem autoInstall_library (I : PackageInstaller) (sh : Runner) (w : World) (f : Str)
    (hlib : ".so".toList <:+ f ∨ ".a".toList <:+ f ∨ ".so.".toList <:+: f)
    (hdeb : ¬ ".deb".toList <:+ f)
    (happ : ¬ ".AppImage".toList <:+ f) (happ2 : ¬ ".appimage".toList <:+ f) :
    autoInstall I sh f w = installLibrary I f w ∧
    actions (autoInstall I sh f w).2.out = actions w.out ++ [(Action.library, f)] := by
  have hd : ¬ isDebPackage f = true := fun h => hdeb ((isDebPackage_iff f).mp h)
  have ha : ¬ isAppImage f = true := fun h => ((isAppImage_iff f).mp h).elim happ happ2
  have hl : isLibrary f = true := by
    rw [isLibrary_iff]
    rcases hlib with h | h | h
    · exact Or.inl h
    · exact Or.inr (Or.inr h)
    · exact Or.inr (Or.inl h)
  have e : autoInstall I sh f w = installLibrary I f w := by
    unfold autoInstall
    rw [if_neg hd, if_neg ha, if_pos hl]
  exact ⟨e, by rw [e]; exact installLibrary_actions I f w⟩

theorem autoInstall_library_witness :
    autoInstall homeU okRunner "libz.so".toList
        ⟨[("libz.so".toList, Node.file [7] 0o755)], 0, []⟩ =
      installLibrary homeU "libz.so".toList ⟨[("libz.so".toList, Node.file [7] 0o755)], 0, []⟩ ∧
    actions (autoInstall homeU okRunner "libz.so".toList
        ⟨[("libz.so".toList, Node.file [7] 0o755)], 0, []⟩).2.out =
      actions [] ++ [(Action.library, "libz.so".toList)] :=
  autoInstall_library homeU okRunner ⟨[("libz.so".toList, Node.file [7] 0o755)], 0, []⟩
    "libz.so".toList (Or.inl (by decide)) (by decide) (by decide) (by decide)

/-- C3: for every path matched by none of the deb, AppImage and library patterns:
if `stat` succeeds and the owner-execute bit is set, `autoInstall` is exactly
`installBinary` and the binary action is the only one entered; otherwise (file absent or
bit clear) `autoInstall` returns failure, reports the unknown type and enters no install
action, leaving the file system untouched. In particular an absent path is never handed to
`installBinary`. -/
theorem autoInstall_binary_or_unknown (I : PackageInstaller) (sh : Runner) (w : World)
    (f : Str) (hdeb : ¬ ".deb".toList <:+ f)
    (happ : ¬ ".AppImage".toList <:+ f) (happ2 : ¬ ".appimage".toList <:+ f)
    (hlib : ¬ (".so".toList <:+ f ∨ ".so.".toList <:+: f ∨ ".a".toList <:+ f)) :
    ((∃ st, stat w.fs f = some st ∧ (st_mode st).testBit 6 = true) →
      autoInstall I sh f w = installBinary I f w ∧
      actions (autoInstall I sh f w).2.out = actions w.out ++ [(Action.binary, f)]) ∧
    (¬ (∃ st, stat w.fs f = some st ∧ (st_mode st).testBit 6 = true) →
      autoInstall I sh f w = (false, w.emit (Event.unknownType f)) ∧
      actions (autoInstall I sh f w).2.out = actions w.out) ∧
    (stat w.fs f = none →
      (autoInstall I sh f w).1 = false ∧ (autoInstall I sh f w).2.fs = w.fs ∧
      actions (autoInstall I sh f w).2.out = actions w.out) := by
  have hd : ¬ isDebPackage f = true := fun h => hdeb ((isDebPackage_iff f).mp h)
  have ha : ¬ isAppImage f = true := fun h => ((isAppImage_iff f).mp h).elim happ happ2
  have hl : ¬ isLibrary f = true := fun h => hlib ((isLibrary_iff f).mp h)
  have hb : isBinary w.fs f = true ↔
      ∃ st, stat w.fs f = some st ∧ (st_mode st).testBit 6 = true := by
    unfold isBinary
    have hda : (isDebPackage f || isAppImage f) = false := by
      simp only [Bool.not_eq_true] at hd ha
      rw [hd, ha]
      rfl
    rw [hda]
    simp only [Bool.false_eq_true, if_false]
    cases hs : stat w.fs f with
    | none => simp
    | some st => simp [and_S_IXUSR_ne_zero]
  have hunk : ¬ isBinary w.fs f = true →
      autoInstall I sh f w = (false, w.emit (Event.unknownType f)) ∧
      actions (autoInstall I sh f w).2.out = actions w.out := by
    intro hn
    have e : autoInstall I sh f w = (false, w.emit (Event.unknownType f)) := by
      unfold autoInstall
      rw [if_neg hd, if_neg ha, if_neg hl, if_neg hn]
    refine ⟨e, ?_⟩
    rw [e]
    simp [World.emit, actions_append, actions]
  refine ⟨?_, ?_, ?_⟩
  · intro hx
    have e : autoInstall I sh f w = installBinary I f w := by
      unfold autoInstall
      rw [if_neg hd, if_neg ha, if_neg hl, if_pos (hb.mpr hx)]
    exact ⟨e, by rw [e]; exact installBinary_actions I f w⟩
  · intro hx
    exact hunk (fun h => hx (hb.mp h))
  · intro hs
    have hn : ¬ isBinary w.fs f = true := by
      rw [hb, hs]
      simp
    obtain ⟨e, ha⟩ := hunk hn
    refine ⟨by rw [e], by rw [e]; rfl, ha⟩

theorem autoInstall_binary_or_unknown_witness :
    autoInstall homeU okRunner "tool".toList ⟨[("tool".toList, Node.file [7] 0o755)], 0, []⟩ =
      installBinary homeU "tool".toList ⟨[("tool".toList, Node.file [7] 0o755)], 0, []⟩ ∧
    actions (autoInstall homeU okRunner "tool".toList
      ⟨[("tool".toList, Node.file [7] 0o755)], 0, []⟩).2.out =
      actions [] ++ [(Action.binary, "tool".toList)] :=
  (autoInstall_binary_or_unknown homeU okRunner
      ⟨[("tool".toList, Node.file [7] 0o755)], 0, []⟩ "tool".toList
      (by decide) (by decide) (by decide) (by decide)).1
    ⟨Node.file [7] 0o755, by decide, by decide⟩

/-! ## The argument loop -/

theorem installOne_auto (I : PackageInstaller) (sh : Runner) (f : Str) (w : World) :
    installOne I sh [] f w = autoInstall I sh f w := by
  simp [installOne]

theorem Sim.symm {w w2 : World} (h : Sim w w2) : Sim w2 w :=
  ⟨h.1.symm, h.2.1.symm, h.2.2.1.symm, h.2.2.2.symm⟩

end Installer
